import Mathlib

/-!
Shallow embedding of the loan-applications service core
(money value object, amortization calculator, validation schemas,
domain entities, and use-case orchestration), together with theorems
checking the natural-language specification against it.

Numeric semantics: JavaScript `number` values are embedded as exact
rationals (`ℚ`).  `Math.round x` is `⌊x + 1/2⌋` (JS rounds half toward
+∞, which agrees with `Int.floor (x + 1/2)`), `Math.ceil` is `Int.ceil`,
and `Math.pow` with a natural exponent is monoid power.  Integer-valued
fields that the source guards with `Number.isInteger` are represented
with `ℕ`/`ℤ` once validated; pre-validation inputs stay `ℚ` with an
explicit integrality check (`Rat.den = 1`).  Thrown exceptions are
`Except` errors.
-/

namespace LoanService

/-- JS `Math.round`: round half toward positive infinity
(`Rat.floor` is the kernel-computable floor; see `jsRound_eq_floor`). -/
def jsRound (q : ℚ) : ℤ := (q + 1/2).floor

/-- Rounding to cent precision as performed by the `MoneyAmount`
constructor: `Math.round (amount * 100) / 100`. -/
def roundCents (q : ℚ) : ℚ := (jsRound (q * 100) : ℚ) / 100

/-- JS `Math.ceil`. -/
def jsCeil (q : ℚ) : ℤ := ⌈q⌉

/-- JS `toUpperCase` restricted to the ASCII range (currency codes in
this service are ASCII strings such as "usd"). -/
def upperChar (c : Char) : Char :=
  if 'a' ≤ c ∧ c ≤ 'z' then Char.ofNat (c.toNat - 32) else c

/-- ASCII string uppercase. -/
def upperStr (s : String) : String := ⟨s.data.map upperChar⟩

/-- Value object from `money-amount.ts`: an amount with a currency code.
Instances are only produced by `MoneyAmount.create` (the constructor) and
the arithmetic operations below. -/
structure MoneyAmount where
  amount : ℚ
  currencyCode : String
deriving DecidableEq

/-- The `MoneyAmount` constructor: rejects negative amounts with the
thrown message, rounds to 2 decimals, uppercases the currency code. -/
def MoneyAmount.create (amount : ℚ) (currencyCode : String := "USD") :
    Except String MoneyAmount :=
  if amount < 0 then .error "Money amount cannot be negative"
  else .ok ⟨roundCents amount, upperStr currencyCode⟩

/-- `MoneyAmount.add`: currency codes must match, then a fresh instance
is constructed from the sum. -/
def MoneyAmount.add (a b : MoneyAmount) : Except String MoneyAmount :=
  if a.currencyCode ≠ b.currencyCode then
    .error "Cannot add money amounts with different currencies"
  else MoneyAmount.create (a.amount + b.amount) a.currencyCode

/-- `MoneyAmount.subtract`: currency codes must match, the difference is
checked for negativity before a fresh instance is constructed. -/
def MoneyAmount.subtract (a b : MoneyAmount) : Except String MoneyAmount :=
  if a.currencyCode ≠ b.currencyCode then
    .error "Cannot subtract money amounts with different currencies"
  else
    let newAmount := a.amount - b.amount
    if newAmount < 0 then .error "Money amount cannot be negative"
    else MoneyAmount.create newAmount a.currencyCode

/-- `MoneyAmount.multiply`: the factor must be non-negative, then a fresh
instance is constructed from the product. -/
def MoneyAmount.multiply (a : MoneyAmount) (factor : ℚ) : Except String MoneyAmount :=
  if factor < 0 then .error "Cannot multiply by a negative factor"
  else MoneyAmount.create (a.amount * factor) a.currencyCode

/-- `MoneyAmount.equals`: amounts and currency codes both match exactly
(the source compares with strict equality). -/
def MoneyAmount.equals (a b : MoneyAmount) : Bool :=
  decide (a.amount = b.amount) && decide (a.currencyCode = b.currencyCode)

/-- Entity from `loan-application.ts`.  The source stores `customerId` as
the string identifier handed to the use case and `termMonths` as an
integer (guarded by `Number.isInteger`), represented here by `ℕ`. -/
structure LoanApplication where
  id : Option ℤ
  customerId : String
  amount : MoneyAmount
  termMonths : ℕ
  annualInterestRate : ℚ
  monthlyPayment : MoneyAmount
deriving DecidableEq

/-- The `LoanApplication` constructor validation: term in [1,360]
(integrality is carried by the `ℕ` type), rate in [0,100]. -/
def LoanApplication.validates (termMonths : ℕ) (annualInterestRate : ℚ) : Bool :=
  decide (1 ≤ termMonths ∧ termMonths ≤ 360 ∧
    0 ≤ annualInterestRate ∧ annualInterestRate ≤ 100)

/-- `LoanApplication.calculateMonthlyPayment` from
`loan-application.ts` (lines 61-79): zero monthly rate falls back to
straight-line division, otherwise the standard amortization formula; the
result is wrapped by the `MoneyAmount` constructor (which performs the
single 2-decimal rounding). -/
def LoanApplication.calculateMonthlyPayment (loanAmount : MoneyAmount)
    (termMonths : ℕ) (annualInterestRate : ℚ) : Except String MoneyAmount :=
  let monthlyRate := annualInterestRate / 12 / 100
  if monthlyRate = 0 then
    MoneyAmount.create (loanAmount.amount / termMonths) loanAmount.currencyCode
  else
    let numerator := monthlyRate * (1 + monthlyRate) ^ termMonths
    let denominator := (1 + monthlyRate) ^ termMonths - 1
    let monthlyPayment := loanAmount.amount * (numerator / denominator)
    MoneyAmount.create monthlyPayment loanAmount.currencyCode

/-! ### Character classes and string patterns used by the validators -/

def alphaChar (c : Char) : Bool :=
  ('a' ≤ c && c ≤ 'z') || ('A' ≤ c && c ≤ 'Z')

def digitChar (c : Char) : Bool := '0' ≤ c && c ≤ '9'

def alnumChar (c : Char) : Bool := alphaChar c || digitChar c

def hexChar (c : Char) : Bool :=
  digitChar c || ('a' ≤ c && c ≤ 'f') || ('A' ≤ c && c ≤ 'F')

/-- Split a character list at every occurrence of a separator character,
keeping empty segments (the behaviour of `String.splitOn` with a
single-character separator). -/
def splitOnChar (sep : Char) : List Char → List (List Char)
  | [] => [[]]
  | c :: rest =>
      match splitOnChar sep rest with
      | [] => [[c]]
      | h :: t => if c = sep then [] :: h :: t else (c :: h) :: t

/-- JS `String.prototype.trim` over ASCII whitespace. -/
def isSpaceChar (c : Char) : Bool :=
  c == ' ' || c == '\t' || c == '\n' || c == '\r'

def trimChars (cs : List Char) : List Char :=
  ((cs.dropWhile isSpaceChar).reverse.dropWhile isSpaceChar).reverse

/-- Local-part character class of the `customer.ts` email regex:
`[a-zA-Z0-9._%+-]`. -/
def entityLocalChar (c : Char) : Bool :=
  alnumChar c || c == '.' || c == '_' || c == '%' || c == '+' || c == '-'

/-- Domain character class of the `customer.ts` email regex:
`[a-zA-Z0-9.-]`. -/
def entityDomainChar (c : Char) : Bool :=
  alnumChar c || c == '.' || c == '-'

/-- Domain part of the `customer.ts` email regex
`[a-zA-Z0-9.-]+\\.[a-zA-Z]{2,}$`: a match exists exactly when the text
after the last dot is at least two letters, something precedes that dot,
and every character is in the domain class. -/
def entityDomainOk (domain : List Char) : Bool :=
  match (splitOnChar '.' domain).getLast? with
  | none => false
  | some tld =>
      decide (2 ≤ (splitOnChar '.' domain).length) &&
      decide (2 ≤ tld.length) && tld.all alphaChar &&
      decide (tld.length + 2 ≤ domain.length) &&
      domain.all entityDomainChar

/-- The `Customer` entity email regex
`^[a-zA-Z0-9._%+-]+@[a-zA-Z0-9.-]+\\.[a-zA-Z]{2,}$`; neither class
contains `@`, so the string must hold exactly one `@`. -/
def entityEmailOk (email : String) : Bool :=
  match splitOnChar '@' email.data with
  | [lp, domain] =>
      decide (lp ≠ []) && lp.all entityLocalChar && entityDomainOk domain
  | _ => false

def hasDoubleDot : List Char → Bool
  | '.' :: '.' :: _ => true
  | _ :: rest => hasDoubleDot rest
  | [] => false

/-- Local-part character class of the zod email pattern. -/
def zodLocalChar (c : Char) : Bool :=
  alnumChar c || c == '_' || c == '\'' || c == '+' || c == '-' || c == '.'

/-- Characters allowed as the last local-part character (no dot, no
apostrophe) in the zod email pattern. -/
def zodLocalEndChar (c : Char) : Bool :=
  alnumChar c || c == '_' || c == '+' || c == '-'

/-- Domain of the zod email pattern: one or more labels, each starting
alphanumeric and continuing with alphanumerics or hyphens, followed by a
final label of at least two letters. -/
def zodDomainOk (domain : List Char) : Bool :=
  match (splitOnChar '.' domain).getLast? with
  | none => false
  | some tld =>
      decide (2 ≤ (splitOnChar '.' domain).length) &&
      decide (2 ≤ tld.length) && tld.all alphaChar &&
      (splitOnChar '.' domain).dropLast.all fun lbl =>
        match lbl with
        | [] => false
        | c :: rest => alnumChar c && rest.all fun d => alnumChar d || d == '-'

/-- `z.string().email()` as a total function: the zod email pattern
(no leading dot, no consecutive dots, a local part over its character
class not ending in a dot or apostrophe, one `@`, and a labelled
domain ending in a letter-only top-level label). -/
def zodEmailOk (email : String) : Bool :=
  (match email.data with
   | '.' :: _ => false
   | _ => true) &&
  !hasDoubleDot email.data &&
  match splitOnChar '@' email.data with
  | [lp, domain] =>
      decide (lp ≠ []) && lp.all zodLocalChar &&
      (match lp.getLast? with
       | some c => zodLocalEndChar c
       | none => false) &&
      zodDomainOk domain
  | _ => false

/-- The lenient UUID pattern of `schemas.ts`
(`^[0-9a-f]{8}-[0-9a-f]{4}-[0-9a-f]{4}-[0-9a-f]{4}-[0-9a-f]{12}$`, case
insensitive): the hex class holds no dash, so the split at dashes must
give exactly five hex groups of lengths 8-4-4-4-12. -/
def uuidLenientOk (s : String) : Bool :=
  match splitOnChar '-' s.data with
  | [a, b, c, d, e] =>
      a.length == 8 && b.length == 4 && c.length == 4 &&
      d.length == 4 && e.length == 12 &&
      (a ++ b ++ c ++ d ++ e).all hexChar
  | _ => false

/-! ### Customer entity (`customer.ts`) -/

/-- Entity from `customer.ts`; `id` is `null` before persistence. -/
structure Customer where
  id : Option ℤ
  fullName : String
  email : String
deriving DecidableEq

/-- One zod issue: a field path and a message, as carried by the
`ValidationError.errors` list. -/
structure Issue where
  path : List String
  message : String
deriving DecidableEq

/-- Errors of the core, one constructor per distinct error class thrown
in the source (`domain-errors.ts`, `validation-error.ts`); `thrown`
carries the message of a plain `Error`. -/
inductive DomainError where
  | validationFailed (issues : List Issue)
  | invalidEmail (email : String)
  | invalidName (msg : String)
  | customerNotFoundById (id : String)
  | customerAlreadyExists (email : String)
  | loanApplicationNotFound (id : String)
  | invalidTerm (t : ℕ)
  | invalidRate (r : ℚ)
  | thrown (msg : String)
deriving DecidableEq

/-- `Customer.validateFullName`: falsy or trimmed length below 2 is
rejected first, then trimmed length above 100. -/
def validateFullNameCheck (fullName : String) : Except DomainError Unit :=
  if fullName = "" ∨ (trimChars fullName.data).length < 2 then
    .error (.invalidName "Full name must be at least 2 characters long")
  else if (trimChars fullName.data).length > 100 then
    .error (.invalidName "Full name must be at most 100 characters long")
  else .ok ()

/-- The `Customer` constructor: validates the email and then the full
name, as in the source constructor. -/
def Customer.create (id : Option ℤ) (fullName email : String) :
    Except DomainError Customer :=
  if entityEmailOk email then
    match validateFullNameCheck fullName with
    | .error e => .error e
    | .ok _ => .ok ⟨id, fullName, email⟩
  else .error (.invalidEmail email)

/-- `Customer.updateFullName`: re-validates, then replaces the field. -/
def Customer.updateFullName (c : Customer) (fullName : String) :
    Except DomainError Customer :=
  match validateFullNameCheck fullName with
  | .error e => .error e
  | .ok _ => .ok { c with fullName := fullName }

/-- `Customer.updateEmail`: re-validates, then replaces the field. -/
def Customer.updateEmail (c : Customer) (email : String) :
    Except DomainError Customer :=
  if entityEmailOk email then .ok { c with email := email }
  else .error (.invalidEmail email)

/-! ### Validation schemas (`schemas.ts`, zod semantics)

`z.object` parses every field and accumulates all issues; each string or
number field runs all of its checks, appending one issue per failed
check, tagged with the field path.  `validate` (in `validator.ts`) wraps
a non-empty issue list into a `ValidationError`. -/

/-- Issues of `z.string().min(lo).max(hi)` for a field. -/
def strLenIssues (field : String) (lo hi : ℕ) (s : String) : List Issue :=
  (if s.length < lo then
    [⟨[field], "String too short"⟩] else []) ++
  (if s.length > hi then
    [⟨[field], "String too long"⟩] else [])

/-- Issues of `z.string().email()` for a field. -/
def emailIssues (field : String) (s : String) : List Issue :=
  if zodEmailOk s then [] else [⟨[field], "Invalid email"⟩]

structure CustomerCreateInput where
  fullName : String
  email : String
deriving DecidableEq

/-- `customerSchemas.create`: `fullName` string of length 2-100,
`email` a zod email. -/
def customerCreateIssues (d : CustomerCreateInput) : List Issue :=
  strLenIssues "fullName" 2 100 d.fullName ++ emailIssues "email" d.email

/-- `validate (customerSchemas.create)`. -/
def customerCreateParse (d : CustomerCreateInput) :
    Except (List Issue) CustomerCreateInput :=
  let issues := customerCreateIssues d
  if issues.isEmpty then .ok d else .error issues

/-- Input of the update schema; absent optional fields are `none`. -/
structure CustomerUpdateInput where
  fullName : Option String
  email : Option String
deriving DecidableEq

def customerUpdateIssues (d : CustomerUpdateInput) : List Issue :=
  (match d.fullName with
   | some s => strLenIssues "fullName" 2 100 s
   | none => []) ++
  (match d.email with
   | some e => emailIssues "email" e
   | none => [])

/-- `validate (customerSchemas.update)`: both fields optional, and the
`refine` (run only when the base object parses) demands at least one
present key. -/
def customerUpdateParse (d : CustomerUpdateInput) :
    Except (List Issue) CustomerUpdateInput :=
  let issues := customerUpdateIssues d
  if issues.isEmpty then
    if d.fullName.isNone && d.email.isNone then
      .error [⟨[], "At least one field must be provided for update"⟩]
    else .ok d
  else .error issues

structure LoanAppCreateInput where
  customerId : String
  amount : ℚ
  termMonths : ℚ
  annualInterestRate : ℚ
deriving DecidableEq

/-- The schema output: `termMonths` is an integer in [1,360] once the
schema accepts, so it is carried as `ℕ`. -/
structure LoanAppValidData where
  customerId : String
  amount : ℚ
  termMonths : ℕ
  annualInterestRate : ℚ
deriving DecidableEq

/-- `loanApplicationSchemas.create`: lenient-UUID `customerId`,
positive `amount`, integer `termMonths` in [1,360],
`annualInterestRate` in [0,100]. -/
def loanAppCreateIssues (d : LoanAppCreateInput) : List Issue :=
  (if uuidLenientOk d.customerId then []
   else [⟨["customerId"], "Invalid UUID format"⟩]) ++
  (if 0 < d.amount then []
   else [⟨["amount"], "Number must be greater than 0"⟩]) ++
  ((if d.termMonths.den == 1 then []
    else [⟨["termMonths"], "Expected integer, received float"⟩]) ++
   (if d.termMonths < 1 then
     [⟨["termMonths"], "Number must be greater than or equal to 1"⟩] else []) ++
   (if d.termMonths > 360 then
     [⟨["termMonths"], "Number must be less than or equal to 360"⟩] else [])) ++
  ((if d.annualInterestRate < 0 then
     [⟨["annualInterestRate"], "Number must be greater than or equal to 0"⟩] else []) ++
   (if d.annualInterestRate > 100 then
     [⟨["annualInterestRate"], "Number must be less than or equal to 100"⟩] else []))

/-- `validate (loanApplicationSchemas.create)`. -/
def loanAppCreateParse (d : LoanAppCreateInput) :
    Except (List Issue) LoanAppValidData :=
  let issues := loanAppCreateIssues d
  if issues.isEmpty then
    .ok ⟨d.customerId, d.amount, d.termMonths.num.toNat, d.annualInterestRate⟩
  else .error issues

/-- Pagination inputs reaching the use cases; the `z.coerce.number()`
string-to-number coercion of the HTTP layer is outside the embedding, so
the fields are already numeric when present. -/
structure PaginationInput where
  page : Option ℚ
  pageSize : Option ℚ
deriving DecidableEq

/-- `commonSchemas.pagination`: `page` an optional integer at least 1,
`pageSize` an optional integer in [1,100]. -/
def paginationIssues (d : PaginationInput) : List Issue :=
  (match d.page with
   | some p =>
       (if p.den == 1 then []
        else [⟨["page"], "Expected integer, received float"⟩]) ++
       (if p < 1 then
         [⟨["page"], "Number must be greater than or equal to 1"⟩] else [])
   | none => []) ++
  (match d.pageSize with
   | some q =>
       (if q.den == 1 then []
        else [⟨["pageSize"], "Expected integer, received float"⟩]) ++
       (if q < 1 then
         [⟨["pageSize"], "Number must be greater than or equal to 1"⟩] else []) ++
       (if q > 100 then
         [⟨["pageSize"], "Number must be less than or equal to 100"⟩] else [])
   | none => [])

/-- `validate (commonSchemas.pagination)`. -/
def paginationParse (d : PaginationInput) :
    Except (List Issue) PaginationInput :=
  let issues := paginationIssues d
  if issues.isEmpty then .ok d else .error issues

/-! ### Pagination helper and repositories -/

structure PaginationParams where
  page : ℚ
  pageSize : ℚ
  skip : ℚ
deriving DecidableEq

/-- `getPaginationParameters` from `loan-application-use-cases.ts`:
`params.page && params.page > 0 ? params.page : 1` (the JS truthiness
conjunct `params.page &&` only excludes 0, which `> 0` already does),
likewise for `pageSize` with default 10, and `skip = (page-1)*pageSize`. -/
def getPaginationParameters (params : PaginationInput) : PaginationParams :=
  let page := match params.page with
    | some p => if 0 < p then p else 1
    | none => 1
  let pageSize := match params.pageSize with
    | some q => if 0 < q then q else 10
    | none => 10
  ⟨page, pageSize, (page - 1) * pageSize⟩

structure CustomerPage where
  customers : List Customer
  total : ℕ
deriving DecidableEq

structure LoanAppPage where
  loanApplications : List LoanApplication
  total : ℕ
deriving DecidableEq

/-- The customer repository boundary (`ICustomerRepository`): the
lookups are arbitrary functions (standing for arbitrary database
contents), and `nextId` is the id the store assigns to the next inserted
row. -/
structure CustomerRepo where
  findById : String → Option Customer
  findByEmail : String → Option Customer
  findAll : ℚ → ℚ → CustomerPage
  nextId : ℤ

/-- `save` of the Prisma customer repository
(`customer-repository.ts`): the entity is serialized with `toJSON`
(`full_name`, `email`), written to the store — an update when the id is
truthy (JS: non-null and non-zero), an insert assigning the store's next
id otherwise — and the returned row is rebuilt with
`Customer.fromPersistence`, which runs the validating entity constructor
again on the stored strings. -/
def prismaCustomerSave (dbId : ℤ) (c : Customer) : Except DomainError Customer :=
  let rowId : ℤ := match c.id with
    | some i => if i ≠ 0 then i else dbId
    | none => dbId
  Customer.create (some rowId) c.fullName c.email

/-- The loan-application repository boundary
(`ILoanApplicationRepository`). -/
structure LoanAppRepo where
  findById : String → Option LoanApplication
  findAll : ℚ → ℚ → LoanAppPage
  findByCustomerId : String → ℚ → ℚ → LoanAppPage
  nextId : ℤ

/-! ### Use cases

Each `execute` is embedded as a pure function of the repository state;
alongside the result it returns the trace relevant to the claims (the
entities passed to `save`, or the emails passed to `findByEmail`), so
that "never calls save" is a statement about the embedding. -/

/-- The `LoanApplication` constructor as called by the use case:
validates term and rate, then assembles the record. -/
def LoanApplication.construct (id : Option ℤ) (customerId : String)
    (amount : MoneyAmount) (termMonths : ℕ) (annualInterestRate : ℚ)
    (monthlyPayment : MoneyAmount) : Except DomainError LoanApplication :=
  if termMonths < 1 ∨ 360 < termMonths then .error (.invalidTerm termMonths)
  else if annualInterestRate < 0 ∨ 100 < annualInterestRate then
    .error (.invalidRate annualInterestRate)
  else .ok ⟨id, customerId, amount, termMonths, annualInterestRate, monthlyPayment⟩

/-- `save` of the Prisma loan-application repository: the entity is
serialized with `toJSON` (only the numeric `amount` and
`monthly_payment` — the currency code is not persisted), written to the
store (an update when the id is truthy, an insert assigning the store's
next id otherwise), and the returned row is rebuilt with
`LoanApplication.fromPersistence`, whose `new MoneyAmount(toNumber ...)`
re-wraps each stored number through the money constructor with the
default "USD" currency before the validating entity constructor runs. -/
def prismaLoanAppSave (dbId : ℤ) (app : LoanApplication) :
    Except DomainError LoanApplication :=
  let rowId : ℤ := match app.id with
    | some i => if i ≠ 0 then i else dbId
    | none => dbId
  match MoneyAmount.create app.amount.amount "USD" with
  | .error msg => .error (.thrown msg)
  | .ok amount2 =>
    match MoneyAmount.create app.monthlyPayment.amount "USD" with
    | .error msg => .error (.thrown msg)
    | .ok mp2 =>
      LoanApplication.construct (some rowId) app.customerId amount2
        app.termMonths app.annualInterestRate mp2

/-- `CreateCustomerUseCase.execute`: validate, check the email is not
already used, construct, save.  The second component lists the customers
passed to `save`. -/
def createCustomerExec (repo : CustomerRepo) (d : CustomerCreateInput) :
    Except DomainError Customer × List Customer :=
  match customerCreateParse d with
  | .error issues => (.error (.validationFailed issues), [])
  | .ok v =>
    match repo.findByEmail v.email with
    | some _ => (.error (.customerAlreadyExists v.email), [])
    | none =>
      match Customer.create none v.fullName v.email with
      | .error e => (.error e, [])
      | .ok c => (prismaCustomerSave repo.nextId c, [c])

/-- Tail of `UpdateCustomerUseCase.execute` after the email branch:
apply the full-name update when the field is provided and truthy
(a schema-valid name is never the empty string), then save. -/
def finishCustomerUpdate (repo : CustomerRepo) (v : CustomerUpdateInput)
    (c : Customer) : Except DomainError Customer :=
  match v.fullName with
  | some n =>
    if n ≠ "" then
      match c.updateFullName n with
      | .error e => .error e
      | .ok c2 => prismaCustomerSave repo.nextId c2
    else prismaCustomerSave repo.nextId c
  | none => prismaCustomerSave repo.nextId c

/-- `UpdateCustomerUseCase.execute`: validate, load by id, re-check
email uniqueness only when the email field is provided, truthy and
differs from the current one, mutate, save.  The second component lists
the emails passed to `findByEmail`.  (The source guard
`existingCustomer.id !== id` strictly compares the numeric entity id
with the string route id, which is always true in JS, so a hit from
`findByEmail` always conflicts.) -/
def updateCustomerExec (repo : CustomerRepo) (id : String)
    (d : CustomerUpdateInput) : Except DomainError Customer × List String :=
  match customerUpdateParse d with
  | .error issues => (.error (.validationFailed issues), [])
  | .ok v =>
    match repo.findById id with
    | none => (.error (.customerNotFoundById id), [])
    | some customer =>
      match v.email with
      | some e =>
        if e ≠ "" ∧ e ≠ customer.email then
          match repo.findByEmail e with
          | some _ => (.error (.customerAlreadyExists e), [e])
          | none =>
            match customer.updateEmail e with
            | .error err => (.error err, [e])
            | .ok c2 => (finishCustomerUpdate repo v c2, [e])
        else (finishCustomerUpdate repo v customer, [])
      | none => (finishCustomerUpdate repo v customer, [])

/-- `CreateLoanApplicationUseCase.execute`: validate, check the customer
exists, build the principal `MoneyAmount` (default USD), compute the
monthly payment, construct the entity, save.  The second component lists
the loan applications passed to `save`. -/
def createLoanApplicationExec (custRepo : CustomerRepo) (loanRepo : LoanAppRepo)
    (d : LoanAppCreateInput) :
    Except DomainError LoanApplication × List LoanApplication :=
  match loanAppCreateParse d with
  | .error issues => (.error (.validationFailed issues), [])
  | .ok v =>
    match custRepo.findById v.customerId with
    | none => (.error (.customerNotFoundById v.customerId), [])
    | some _ =>
      match MoneyAmount.create v.amount "USD" with
      | .error msg => (.error (.thrown msg), [])
      | .ok loanAmount =>
        match LoanApplication.calculateMonthlyPayment loanAmount
            v.termMonths v.annualInterestRate with
        | .error msg => (.error (.thrown msg), [])
        | .ok monthlyPayment =>
          match LoanApplication.construct none v.customerId loanAmount
              v.termMonths v.annualInterestRate monthlyPayment with
          | .error e => (.error e, [])
          | .ok app =>
            match prismaLoanAppSave loanRepo.nextId app with
            | .ok saved => (.ok saved, [app])
            | .error e => (.error e, [app])

structure CustomerListResult where
  customers : List Customer
  total : ℕ
  page : ℚ
  pageSize : ℚ
  totalPages : ℤ
deriving DecidableEq

structure LoanAppListResult where
  loanApplications : List LoanApplication
  total : ℕ
  page : ℚ
  pageSize : ℚ
  totalPages : ℤ
deriving DecidableEq

/-- `ListCustomersUseCase.execute`: the source normalizes pagination
inline with the same formulas as `getPaginationParameters`. -/
def listCustomersExec (repo : CustomerRepo) (params : PaginationInput) :
    CustomerListResult :=
  let page := match params.page with
    | some p => if 0 < p then p else 1
    | none => 1
  let pageSize := match params.pageSize with
    | some q => if 0 < q then q else 10
    | none => 10
  let skip := (page - 1) * pageSize
  let r := repo.findAll skip pageSize
  ⟨r.customers, r.total, page, pageSize, jsCeil ((r.total : ℚ) / pageSize)⟩

/-- `ListLoanApplicationsUseCase.execute`. -/
def listLoanApplicationsExec (repo : LoanAppRepo) (params : PaginationInput) :
    LoanAppListResult :=
  let p := getPaginationParameters params
  let r := repo.findAll p.skip p.pageSize
  ⟨r.loanApplications, r.total, p.page, p.pageSize,
    jsCeil ((r.total : ℚ) / p.pageSize)⟩

/-- `GetLoanApplicationsByCustomerIdUseCase.execute`: the customer
existence check precedes the paged read. -/
def loanAppsByCustomerExec (loanRepo : LoanAppRepo) (custRepo : CustomerRepo)
    (customerId : String) (params : PaginationInput) :
    Except DomainError LoanAppListResult :=
  match custRepo.findById customerId with
  | none => .error (.customerNotFoundById customerId)
  | some _ =>
    let p := getPaginationParameters params
    let r := loanRepo.findByCustomerId customerId p.skip p.pageSize
    .ok ⟨r.loanApplications, r.total, p.page, p.pageSize,
      jsCeil ((r.total : ℚ) / p.pageSize)⟩

/-! ### Basic lemmas about rounding -/

theorem jsRound_eq_floor (q : ℚ) : jsRound q = ⌊q + 1/2⌋ := by
  rw [jsRound, Rat.floor_def', Rat.floor_def]

theorem roundCents_idem (q : ℚ) : roundCents (roundCents q) = roundCents q := by
  have h0 : ⌊(1/2 : ℚ)⌋ = 0 :=
    Int.floor_eq_zero_iff.mpr (Set.mem_Ico.mpr ⟨by norm_num, by norm_num⟩)
  unfold roundCents
  rw [jsRound_eq_floor, jsRound_eq_floor,
    div_mul_cancel₀ _ (by norm_num : (100:ℚ) ≠ 0), Int.floor_int_add, h0,
    add_zero]

theorem roundCents_nonneg {q : ℚ} (h : 0 ≤ q) : 0 ≤ roundCents q := by
  rw [roundCents, jsRound_eq_floor]
  have h1 : (0:ℤ) ≤ ⌊q * 100 + 1/2⌋ := by
    apply Int.le_floor.mpr
    push_cast
    nlinarith
  exact div_nonneg (by exact_mod_cast h1) (by norm_num)

theorem upperStr_USD : upperStr "USD" = "USD" := by decide

/-- Inversion of a successful `MoneyAmount` construction: the input was
non-negative and the instance holds its rounding with the uppercased
currency. -/
theorem moneyCreate_ok_inv {x : ℚ} {c : String} {m : MoneyAmount}
    (h : MoneyAmount.create x c = .ok m) :
    ¬ x < 0 ∧ m = ⟨roundCents x, upperStr c⟩ := by
  unfold MoneyAmount.create at h
  by_cases hx : x < 0
  · rw [if_pos hx] at h; simp at h
  · rw [if_neg hx] at h; exact ⟨hx, (Except.ok.inj h).symm⟩

/-- Inversion of a successful calculator run: the payment is the
rounding of some non-negative raw value, in the principal's currency. -/
theorem calc_ok_inv {la : MoneyAmount} {n : ℕ} {r : ℚ} {mp : MoneyAmount}
    (h : LoanApplication.calculateMonthlyPayment la n r = .ok mp) :
    ∃ z, ¬ z < 0 ∧ mp = ⟨roundCents z, upperStr la.currencyCode⟩ := by
  simp only [LoanApplication.calculateMonthlyPayment] at h
  by_cases h0 : r / 12 / 100 = 0
  · rw [if_pos h0] at h
    obtain ⟨hz, hm⟩ := moneyCreate_ok_inv h
    exact ⟨_, hz, hm⟩
  · rw [if_neg h0] at h
    obtain ⟨hz, hm⟩ := moneyCreate_ok_inv h
    exact ⟨_, hz, hm⟩

/-- Inversion of a successful `Customer` construction. -/
theorem customerCreate_ok_inv {id : Option ℤ} {fn em : String}
    {c : Customer} (h : Customer.create id fn em = .ok c) :
    entityEmailOk em = true ∧ validateFullNameCheck fn = .ok () ∧
      c = ⟨id, fn, em⟩ := by
  unfold Customer.create at h
  by_cases he : entityEmailOk em
  · rw [if_pos he] at h
    cases hv : validateFullNameCheck fn with
    | error e => rw [hv] at h; simp at h
    | ok u => rw [hv] at h; cases u; exact ⟨he, rfl, (Except.ok.inj h).symm⟩
  · rw [if_neg he] at h; simp at h

/-- The full-name check either passes or throws an invalid-name error. -/
theorem validateFullNameCheck_cases (n : String) :
    validateFullNameCheck n = .ok () ∨
    ∃ msg, validateFullNameCheck n = .error (.invalidName msg) := by
  rw [validateFullNameCheck]
  split_ifs <;> simp

/-- The Prisma customer `save` can only fail with the entity
constructor's errors, never with a conflict. -/
theorem prismaCustomerSave_not_conflict (nid : ℤ) (c : Customer)
    (e : String) :
    prismaCustomerSave nid c ≠ .error (.customerAlreadyExists e) := by
  by_cases he : entityEmailOk c.email
  · rcases validateFullNameCheck_cases c.fullName with hv | ⟨msg, hv⟩ <;>
      simp [prismaCustomerSave, Customer.create, he, hv]
  · simp [prismaCustomerSave, Customer.create, he]

/-- Re-wrapping an already-rounded non-negative amount through the
money constructor with the default "USD" currency is the identity: the
rounding is idempotent. -/
theorem create_roundtrip {x : ℚ} (hx : ¬ x < 0) :
    MoneyAmount.create (roundCents x) "USD" = .ok ⟨roundCents x, "USD"⟩ := by
  unfold MoneyAmount.create
  rw [if_neg (not_lt.mpr (roundCents_nonneg (not_lt.mp hx))), roundCents_idem,
    upperStr_USD]

/-- The Prisma customer `save` succeeds on an entity-valid customer and
stores its name and email unchanged. -/
theorem prismaCustomerSave_ok (nid : ℤ) (c : Customer)
    (he : entityEmailOk c.email = true)
    (hn : validateFullNameCheck c.fullName = .ok ()) :
    ∃ saved, prismaCustomerSave nid c = .ok saved ∧
      saved.fullName = c.fullName ∧ saved.email = c.email := by
  refine ⟨⟨some (match c.id with
      | some i => if i ≠ 0 then i else nid
      | none => nid), c.fullName, c.email⟩, ?_, rfl, rfl⟩
  simp [prismaCustomerSave, Customer.create, he, hn]

/-! ### C2: MoneyAmount construction -/

/-- C2: constructing `MoneyAmount x c` fails with the invalid-amount
error exactly when `x < 0`; otherwise the stored amount is
`round (x*100) / 100`, reading back a value that re-rounds to itself
(exactly 2 decimals), and two constructions from the same input give
`equals` instances. -/
theorem money_create_spec (x : ℚ) (c : String) :
    (x < 0 → MoneyAmount.create x c = .error "Money amount cannot be negative")
    ∧ (0 ≤ x →
        MoneyAmount.create x c = .ok ⟨roundCents x, upperStr c⟩
          ∧ roundCents (roundCents x) = roundCents x)
    ∧ (0 ≤ x → ∀ m₁ m₂, MoneyAmount.create x c = .ok m₁ →
        MoneyAmount.create x c = .ok m₂ → m₁.equals m₂ = true) := by
  refine ⟨fun h => ?_, fun h => ⟨?_, roundCents_idem x⟩,
    fun h m₁ m₂ h₁ h₂ => ?_⟩
  · simp [MoneyAmount.create, h]
  · simp [MoneyAmount.create, not_lt.mpr h]
  · rw [h₁] at h₂
    cases Except.ok.inj h₂
    simp [MoneyAmount.equals]

/-- Witness for C2 at the already-rounded input `10.05`. -/
theorem money_create_spec_witness :
    (0:ℚ) ≤ 1005/100 ∧ roundCents (1005/100) = 1005/100 ∧
    MoneyAmount.create (1005/100) "usd" = .ok ⟨1005/100, "USD"⟩ ∧
    (∀ m₁ m₂, MoneyAmount.create (1005/100) "usd" = .ok m₁ →
      MoneyAmount.create (1005/100) "usd" = .ok m₂ → m₁.equals m₂ = true) := by
  have hr : roundCents (1005/100) = 1005/100 := by
    rw [roundCents, jsRound_eq_floor]; norm_num
  refine ⟨by norm_num, hr, ?_,
    fun m₁ m₂ h₁ h₂ =>
      (money_create_spec (1005/100) "usd").2.2 (by norm_num) m₁ m₂ h₁ h₂⟩
  have hc := ((money_create_spec (1005/100) "usd").2.1 (by norm_num)).1
  rw [hc, hr, show upperStr "usd" = "USD" from by decide]

/-! ### C8: MoneyAmount arithmetic -/

/-- C8: `add` and `subtract` fail with the currency-mismatch errors
exactly when the codes differ; with matching codes `subtract` fails with
the negative-result error exactly when the difference is negative;
`multiply` fails with the negative-factor error exactly when the factor
is negative; every non-failing case returns a fresh instance holding the
rounded arithmetic result. -/
theorem money_arithmetic_spec (a b : MoneyAmount) (f : ℚ)
    (ha : 0 ≤ a.amount) (hb : 0 ≤ b.amount) :
    (a.currencyCode ≠ b.currencyCode →
      a.add b = .error "Cannot add money amounts with different currencies"
        ∧ a.subtract b =
            .error "Cannot subtract money amounts with different currencies")
    ∧ (a.currencyCode = b.currencyCode →
      a.add b = .ok ⟨roundCents (a.amount + b.amount), upperStr a.currencyCode⟩
        ∧ (a.amount - b.amount < 0 →
            a.subtract b = .error "Money amount cannot be negative")
        ∧ (0 ≤ a.amount - b.amount →
            a.subtract b =
              .ok ⟨roundCents (a.amount - b.amount), upperStr a.currencyCode⟩))
    ∧ (f < 0 → a.multiply f = .error "Cannot multiply by a negative factor")
    ∧ (0 ≤ f →
        a.multiply f = .ok ⟨roundCents (a.amount * f), upperStr a.currencyCode⟩) := by
  refine ⟨fun h => ⟨?_, ?_⟩, fun h => ⟨?_, fun h2 => ?_, fun h2 => ?_⟩,
    fun h => ?_, fun h => ?_⟩
  · simp [MoneyAmount.add, h]
  · simp [MoneyAmount.subtract, h]
  · have hs : 0 ≤ a.amount + b.amount := add_nonneg ha hb
    simp [MoneyAmount.add, h, MoneyAmount.create, not_lt.mpr hs]
  · simp [MoneyAmount.subtract, h, h2]
  · simp [MoneyAmount.subtract, h, MoneyAmount.create, not_lt.mpr h2,
      not_lt.mpr h2]
  · simp [MoneyAmount.multiply, h]
  · have hp : 0 ≤ a.amount * f := mul_nonneg ha h
    simp [MoneyAmount.multiply, not_lt.mpr h, MoneyAmount.create,
      not_lt.mpr hp]

/-- Witness for C8: USD+EUR fails with the mismatch error, USD+USD sums
to 15. -/
theorem money_arithmetic_spec_witness :
    MoneyAmount.add ⟨10, "USD"⟩ ⟨5, "EUR"⟩ =
      .error "Cannot add money amounts with different currencies" ∧
    MoneyAmount.add ⟨10, "USD"⟩ ⟨5, "USD"⟩ = .ok ⟨15, "USD"⟩ := by
  have h1 := (money_arithmetic_spec ⟨10, "USD"⟩ ⟨5, "EUR"⟩ 0
    (by norm_num) (by norm_num)).1 (by decide)
  have h2 := (money_arithmetic_spec ⟨10, "USD"⟩ ⟨5, "USD"⟩ 0
    (by norm_num) (by norm_num)).2.1 rfl
  refine ⟨h1.1, ?_⟩
  rw [h2.1]
  norm_num [roundCents, jsRound_eq_floor, upperStr, upperChar]
  decide

/-! ### C1: amortization calculator -/

/-- Zero-rate branch of the calculator: straight-line division, wrapped
by the constructor (which rounds once). -/
theorem calc_zero_eq (P : MoneyAmount) (n : ℕ) (r : ℚ)
    (hP : 0 ≤ P.amount) (h0 : r / 12 / 100 = 0) :
    LoanApplication.calculateMonthlyPayment P n r =
      MoneyAmount.create (P.amount / n) P.currencyCode ∧
    LoanApplication.calculateMonthlyPayment P n r =
      .ok ⟨roundCents (P.amount / n), upperStr P.currencyCode⟩ := by
  have hdiv : 0 ≤ P.amount / (n:ℚ) := div_nonneg hP (Nat.cast_nonneg n)
  constructor
  · simp only [LoanApplication.calculateMonthlyPayment]
    rw [if_pos h0]
  · simp only [LoanApplication.calculateMonthlyPayment]
    rw [if_pos h0]
    simp only [MoneyAmount.create]
    rw [if_neg (not_lt.mpr hdiv)]

/-- Nonzero-rate branch of the calculator: the amortization formula,
wrapped by the constructor (which rounds once).  The payment is
non-negative because the monthly rate is positive, so the constructor
cannot reject it. -/
theorem calc_nonzero_eq (P : MoneyAmount) (n : ℕ) (r : ℚ)
    (hP : 0 ≤ P.amount) (hn : n ≠ 0) (hr0 : 0 ≤ r)
    (hne : r / 12 / 100 ≠ 0) :
    LoanApplication.calculateMonthlyPayment P n r =
      MoneyAmount.create
        (P.amount * ((r/12/100 * (1 + r/12/100) ^ n) / ((1 + r/12/100) ^ n - 1)))
        P.currencyCode ∧
    LoanApplication.calculateMonthlyPayment P n r =
      .ok ⟨roundCents
            (P.amount * ((r/12/100 * (1 + r/12/100) ^ n) / ((1 + r/12/100) ^ n - 1))),
          upperStr P.currencyCode⟩ := by
  have hm0 : 0 < r / 12 / 100 :=
    lt_of_le_of_ne (by positivity) (Ne.symm hne)
  have hpow : 1 < (1 + r/12/100) ^ n :=
    one_lt_pow₀ (by linarith) hn
  have hpay : 0 ≤ P.amount *
      ((r/12/100 * (1 + r/12/100) ^ n) / ((1 + r/12/100) ^ n - 1)) := by
    have hnum : 0 < r/12/100 * (1 + r/12/100) ^ n :=
      mul_pos hm0 (by linarith)
    have hden : 0 < (1 + r/12/100) ^ n - 1 := by linarith
    exact mul_nonneg hP (le_of_lt (div_pos hnum hden))
  constructor
  · simp only [LoanApplication.calculateMonthlyPayment]
    rw [if_neg hne]
  · simp only [LoanApplication.calculateMonthlyPayment]
    rw [if_neg hne]
    simp only [MoneyAmount.create]
    rw [if_neg (not_lt.mpr hpay)]

/-- C1: for every principal, integer term in [1,360] and rate in
[0,100], the calculator returns the straight-line division when the
monthly rate is zero and the amortization-formula payment otherwise,
each wrapped as a `MoneyAmount` in the principal's currency with the
2-decimal rounding applied exactly once at construction; for principal
10000, rate 5.25 and term 36 the payment lies strictly between 299 and
303. -/
theorem amortization_spec (P : MoneyAmount) (n : ℕ) (r : ℚ)
    (hP : 0 ≤ P.amount) (hn1 : 1 ≤ n) (hn2 : n ≤ 360)
    (hr0 : 0 ≤ r) (hr1 : r ≤ 100) :
    (r / 12 / 100 = 0 →
      LoanApplication.calculateMonthlyPayment P n r =
        MoneyAmount.create (P.amount / n) P.currencyCode ∧
      LoanApplication.calculateMonthlyPayment P n r =
        .ok ⟨roundCents (P.amount / n), upperStr P.currencyCode⟩)
    ∧ (r / 12 / 100 ≠ 0 →
      LoanApplication.calculateMonthlyPayment P n r =
        MoneyAmount.create
          (P.amount * ((r/12/100 * (1 + r/12/100) ^ n) / ((1 + r/12/100) ^ n - 1)))
          P.currencyCode ∧
      LoanApplication.calculateMonthlyPayment P n r =
        .ok ⟨roundCents
              (P.amount * ((r/12/100 * (1 + r/12/100) ^ n) / ((1 + r/12/100) ^ n - 1))),
            upperStr P.currencyCode⟩)
    ∧ (∃ mp, LoanApplication.calculateMonthlyPayment ⟨10000, "USD"⟩ 36 (21/4) = .ok mp
        ∧ 299 < mp.amount ∧ mp.amount < 303) := by
  refine ⟨fun h0 => calc_zero_eq P n r hP h0,
    fun hne => calc_nonzero_eq P n r hP (by omega) hr0 hne, ?_⟩
  have hc := (calc_nonzero_eq ⟨10000, "USD"⟩ 36 (21/4) (by norm_num) (by norm_num)
    (by norm_num) (by norm_num)).2
  refine ⟨_, hc, ?_, ?_⟩
  · show (299:ℚ) < roundCents _
    rw [roundCents, jsRound_eq_floor]
    have hz : (29901:ℤ) ≤ ⌊(10000:ℚ) *
        ((21/4/12/100 * (1 + 21/4/12/100) ^ 36) / ((1 + 21/4/12/100) ^ 36 - 1)) * 100
        + 1/2⌋ := by
      rw [Int.le_floor]
      push_cast
      norm_num
    have : (29901:ℚ) ≤ (⌊(10000:ℚ) *
        ((21/4/12/100 * (1 + 21/4/12/100) ^ 36) / ((1 + 21/4/12/100) ^ 36 - 1)) * 100
        + 1/2⌋ : ℚ) := by exact_mod_cast hz
    linarith
  · show roundCents _ < (303:ℚ)
    rw [roundCents, jsRound_eq_floor]
    have hz : ⌊(10000:ℚ) *
        ((21/4/12/100 * (1 + 21/4/12/100) ^ 36) / ((1 + 21/4/12/100) ^ 36 - 1)) * 100
        + 1/2⌋ < (30300:ℤ) := by
      rw [Int.floor_lt]
      push_cast
      norm_num
    have : (⌊(10000:ℚ) *
        ((21/4/12/100 * (1 + 21/4/12/100) ^ 36) / ((1 + 21/4/12/100) ^ 36 - 1)) * 100
        + 1/2⌋ : ℚ) < 30300 := by exact_mod_cast hz
    linarith

/-- Witness for C1 at principal 10000 USD, rate 5.25, term 36. -/
theorem amortization_spec_witness :
    (0:ℚ) ≤ 10000 ∧ (1 ≤ 36 ∧ 36 ≤ 360) ∧ ((0:ℚ) ≤ 21/4 ∧ (21/4:ℚ) ≤ 100) ∧
    (∃ mp, LoanApplication.calculateMonthlyPayment ⟨10000, "USD"⟩ 36 (21/4) = .ok mp
      ∧ 299 < mp.amount ∧ mp.amount < 303) :=
  ⟨by norm_num, ⟨by norm_num, by norm_num⟩, ⟨by norm_num, by norm_num⟩,
    (amortization_spec ⟨10000, "USD"⟩ 36 (21/4) (by norm_num) (by norm_num)
      (by norm_num) (by norm_num) (by norm_num)).2.2⟩

/-! ### C3: validation collects one issue per violated field -/

/-- C3: a create-customer payload with a too-short `fullName` and a
malformed `email` fails validation with exactly two issues, one per
violated field, each carrying the field path and a message — and the
create-customer use case surfaces exactly that list in a single
validation-failed error without touching the repository. -/
theorem validation_collects_all_issues (fn em : String)
    (hfn : fn.length < 2) (hem : zodEmailOk em = false) :
    customerCreateParse ⟨fn, em⟩ =
      .error [⟨["fullName"], "String too short"⟩, ⟨["email"], "Invalid email"⟩]
    ∧ ∀ repo, createCustomerExec repo ⟨fn, em⟩ =
        (.error (.validationFailed
          [⟨["fullName"], "String too short"⟩, ⟨["email"], "Invalid email"⟩]), []) := by
  have hmax : ¬ (fn.length > 100) := by omega
  have hparse : customerCreateParse ⟨fn, em⟩ =
      .error [⟨["fullName"], "String too short"⟩, ⟨["email"], "Invalid email"⟩] := by
    simp [customerCreateParse, customerCreateIssues, strLenIssues, emailIssues,
      hfn, hmax, hem]
  refine ⟨hparse, fun repo => ?_⟩
  simp [createCustomerExec, hparse]

/-- Witness for C3 at `fullName = "J"`, `email = "not-an-email"`. -/
theorem validation_collects_all_issues_witness :
    ("J").length < 2 ∧ zodEmailOk "not-an-email" = false ∧
    customerCreateParse ⟨"J", "not-an-email"⟩ =
      .error [⟨["fullName"], "String too short"⟩, ⟨["email"], "Invalid email"⟩] :=
  ⟨by decide, by decide,
    (validation_collects_all_issues "J" "not-an-email" (by decide) (by decide)).1⟩

instance {ε α : Type} [DecidableEq ε] [DecidableEq α] :
    DecidableEq (Except ε α) := fun a b =>
  match a, b with
  | .ok x, .ok y =>
      if h : x = y then .isTrue (by rw [h]) else .isFalse (by simp [h])
  | .error x, .error y =>
      if h : x = y then .isTrue (by rw [h]) else .isFalse (by simp [h])
  | .ok _, .error _ => .isFalse (by simp)
  | .error _, .ok _ => .isFalse (by simp)

/-! ### Concrete fixtures used by witnesses -/

def sampleUuid : String := "11111111-1111-1111-1111-111111111111"

def johnDoe : Customer := ⟨some 1, "John Doe", "john@example.com"⟩

/-- A customer repository whose lookups always miss. -/
def emptyCustomerRepo : CustomerRepo :=
  ⟨fun _ => none, fun _ => none, fun _ _ => ⟨[], 0⟩, 1⟩

/-- A loan-application repository with no stored rows. -/
def emptyLoanRepo : LoanAppRepo :=
  ⟨fun _ => none, fun _ _ => ⟨[], 0⟩, fun _ _ _ => ⟨[], 0⟩, 1⟩

/-- A customer repository that finds `johnDoe` under every id and email. -/
def repoWithJohn : CustomerRepo :=
  ⟨fun _ => some johnDoe, fun _ => some johnDoe, fun _ _ => ⟨[johnDoe], 1⟩, 2⟩

/-! ### C4: no partial write on missing customer -/

/-- C4: a schema-valid create-loan-application input whose customer is
not found fails with the customer-not-found error, and nothing is ever
passed to the loan-application repository's `save`. -/
theorem create_loan_app_no_partial_write (custRepo : CustomerRepo)
    (loanRepo : LoanAppRepo) (d : LoanAppCreateInput) (v : LoanAppValidData)
    (hv : loanAppCreateParse d = .ok v)
    (hc : custRepo.findById v.customerId = none) :
    createLoanApplicationExec custRepo loanRepo d =
      (.error (.customerNotFoundById v.customerId), []) := by
  simp [createLoanApplicationExec, hv, hc]

/-- Witness for C4: a well-formed input against an empty customer
repository. -/
theorem create_loan_app_no_partial_write_witness :
    loanAppCreateParse ⟨sampleUuid, 1000, 12, 5⟩ =
      .ok ⟨sampleUuid, 1000, 12, 5⟩ ∧
    emptyCustomerRepo.findById sampleUuid = none ∧
    createLoanApplicationExec emptyCustomerRepo emptyLoanRepo
        ⟨sampleUuid, 1000, 12, 5⟩ =
      (.error (.customerNotFoundById sampleUuid), []) := by
  have hv : loanAppCreateParse ⟨sampleUuid, 1000, 12, 5⟩ =
      .ok ⟨sampleUuid, 1000, 12, 5⟩ := by
    simp [loanAppCreateParse, loanAppCreateIssues, sampleUuid, uuidLenientOk,
      splitOnChar, hexChar, digitChar]
    all_goals norm_num
  exact ⟨hv, rfl,
    create_loan_app_no_partial_write emptyCustomerRepo emptyLoanRepo
      ⟨sampleUuid, 1000, 12, 5⟩ ⟨sampleUuid, 1000, 12, 5⟩ hv rfl⟩

/-! ### C6: monthlyPayment is the calculator output -/

/-- C6: every loan application returned by the create use case carries
exactly the calculator's output for its amount, term and rate as
`monthlyPayment` (the input carries no such field, and reading the
stored field performs no recomputation). -/
theorem monthly_payment_derived (custRepo : CustomerRepo)
    (loanRepo : LoanAppRepo) (d : LoanAppCreateInput) (v : LoanAppValidData)
    (app : LoanApplication) (saves : List LoanApplication)
    (hv : loanAppCreateParse d = .ok v)
    (hex : createLoanApplicationExec custRepo loanRepo d = (.ok app, saves)) :
    ∃ loanAmount mp,
      MoneyAmount.create v.amount "USD" = .ok loanAmount ∧
      LoanApplication.calculateMonthlyPayment loanAmount v.termMonths
        v.annualInterestRate = .ok mp ∧
      app.monthlyPayment = mp ∧
      app.amount = loanAmount ∧ app.termMonths = v.termMonths ∧
      app.annualInterestRate = v.annualInterestRate := by
  simp only [createLoanApplicationExec, hv] at hex
  cases hfind : custRepo.findById v.customerId with
  | none => simp [hfind] at hex
  | some c =>
    simp only [hfind] at hex
    cases hcr : MoneyAmount.create v.amount "USD" with
    | error e => simp [hcr] at hex
    | ok loanAmount =>
      simp only [hcr] at hex
      cases hcalc : LoanApplication.calculateMonthlyPayment loanAmount
          v.termMonths v.annualInterestRate with
      | error e => simp [hcalc] at hex
      | ok mp =>
        simp only [hcalc] at hex
        by_cases hterm : v.termMonths = 0 ∨ 360 < v.termMonths
        · simp [LoanApplication.construct, hterm] at hex
        · by_cases hrate : v.annualInterestRate < 0 ∨ 100 < v.annualInterestRate
          · simp [LoanApplication.construct, hterm, hrate] at hex
          · -- both constructor validations pass; the entity goes through
            -- the Prisma save, which round-trips its fields
            have hterm2 : ¬ (v.termMonths < 1 ∨ 360 < v.termMonths) := by
              omega
            simp only [LoanApplication.construct, if_neg hterm2,
              if_neg hrate] at hex
            obtain ⟨hxa, hla⟩ := moneyCreate_ok_inv hcr
            obtain ⟨z, hz, hmp⟩ := calc_ok_inv hcalc
            simp only [upperStr_USD] at hla
            simp only [hla, upperStr_USD] at hmp
            have hc1 : MoneyAmount.create loanAmount.amount "USD" =
                .ok loanAmount := by
              rw [hla]; exact create_roundtrip hxa
            have hc2 : MoneyAmount.create mp.amount "USD" = .ok mp := by
              rw [hmp]; exact create_roundtrip hz
            cases hsave : prismaLoanAppSave loanRepo.nextId
                ⟨none, v.customerId, loanAmount, v.termMonths,
                  v.annualInterestRate, mp⟩ with
            | error e => rw [hsave] at hex; simp at hex
            | ok saved =>
              rw [hsave] at hex
              have happ : saved = app := by
                have h1 := congrArg Prod.fst hex
                simpa using h1
              have hsave2 : saved = ⟨some loanRepo.nextId, v.customerId,
                  loanAmount, v.termMonths, v.annualInterestRate, mp⟩ := by
                simp only [prismaLoanAppSave, hc1, hc2,
                  LoanApplication.construct, if_neg hterm2, if_neg hrate]
                  at hsave
                exact (Except.ok.inj hsave).symm
              refine ⟨loanAmount, mp, rfl, hcalc, ?_, ?_, ?_, ?_⟩ <;>
                simp [← happ, hsave2]

/-- Witness for C6: a successful creation at amount 1200, term 12,
rate 0 yields the calculator's payment 100. -/
theorem monthly_payment_derived_witness :
    loanAppCreateParse ⟨sampleUuid, 1200, 12, 0⟩ =
      .ok ⟨sampleUuid, 1200, 12, 0⟩ ∧
    createLoanApplicationExec repoWithJohn emptyLoanRepo
        ⟨sampleUuid, 1200, 12, 0⟩ =
      (.ok ⟨some 1, sampleUuid, ⟨1200, "USD"⟩, 12, 0, ⟨100, "USD"⟩⟩,
        [⟨none, sampleUuid, ⟨1200, "USD"⟩, 12, 0, ⟨100, "USD"⟩⟩]) ∧
    ∃ loanAmount mp,
      MoneyAmount.create (1200:ℚ) "USD" = .ok loanAmount ∧
      LoanApplication.calculateMonthlyPayment loanAmount 12 0 = .ok mp ∧
      (⟨some 1, sampleUuid, ⟨1200, "USD"⟩, 12, 0, ⟨100, "USD"⟩⟩ :
        LoanApplication).monthlyPayment = mp := by
  have hv : loanAppCreateParse ⟨sampleUuid, 1200, 12, 0⟩ =
      .ok ⟨sampleUuid, 1200, 12, 0⟩ := by
    simp [loanAppCreateParse, loanAppCreateIssues, sampleUuid, uuidLenientOk,
      splitOnChar, hexChar, digitChar]
    all_goals norm_num
  have hcr : MoneyAmount.create (1200:ℚ) "USD" = .ok ⟨1200, "USD"⟩ := by
    rw [MoneyAmount.create, if_neg (by norm_num)]
    norm_num [roundCents, jsRound_eq_floor, upperStr, upperChar]
    decide
  have hcalc : LoanApplication.calculateMonthlyPayment ⟨1200, "USD"⟩ 12 0 =
      .ok ⟨100, "USD"⟩ := by
    have h := (calc_zero_eq ⟨1200, "USD"⟩ 12 0 (by norm_num) (by norm_num)).2
    rw [h]
    norm_num [roundCents, jsRound_eq_floor, upperStr, upperChar]
    decide
  have hcr2 : MoneyAmount.create (100:ℚ) "USD" = .ok ⟨100, "USD"⟩ := by
    rw [MoneyAmount.create, if_neg (by norm_num)]
    norm_num [roundCents, jsRound_eq_floor, upperStr, upperChar]
    decide
  have hex : createLoanApplicationExec repoWithJohn emptyLoanRepo
      ⟨sampleUuid, 1200, 12, 0⟩ =
      (.ok ⟨some 1, sampleUuid, ⟨1200, "USD"⟩, 12, 0, ⟨100, "USD"⟩⟩,
        [⟨none, sampleUuid, ⟨1200, "USD"⟩, 12, 0, ⟨100, "USD"⟩⟩]) := by
    simp only [createLoanApplicationExec, hv, repoWithJohn, hcr, hcalc,
      LoanApplication.construct, prismaLoanAppSave, hcr2, emptyLoanRepo]
    norm_num [hcr, hcr2]
  refine ⟨hv, hex, ?_⟩
  obtain ⟨la, mp, h₁, h₂, h₃, _, _, _⟩ :=
    monthly_payment_derived repoWithJohn emptyLoanRepo
      ⟨sampleUuid, 1200, 12, 0⟩ ⟨sampleUuid, 1200, 12, 0⟩
      ⟨some 1, sampleUuid, ⟨1200, "USD"⟩, 12, 0, ⟨100, "USD"⟩⟩
      [⟨none, sampleUuid, ⟨1200, "USD"⟩, 12, 0, ⟨100, "USD"⟩⟩] hv hex
  exact ⟨la, mp, h₁, h₂, h₃⟩

/-! ### C7: duplicate e-mail conflict on customer creation -/

/-- C7: for a schema-valid create-customer input, a `findByEmail` hit
makes the use case fail with the already-exists conflict carrying that
email, with nothing passed to `save`; a `findByEmail` miss constructs
the customer and saves exactly it — the Prisma save re-validates the
same strings, so it succeeds and returns the row under the store's next
id. -/
theorem create_customer_conflict (repo : CustomerRepo)
    (d : CustomerCreateInput) (hv : customerCreateParse d = .ok d) :
    (∀ c, repo.findByEmail d.email = some c →
      createCustomerExec repo d =
        (.error (.customerAlreadyExists d.email), []))
    ∧ (repo.findByEmail d.email = none →
      ∀ cust, Customer.create none d.fullName d.email = .ok cust →
        cust = ⟨none, d.fullName, d.email⟩ ∧
        createCustomerExec repo d =
          (.ok ⟨some repo.nextId, d.fullName, d.email⟩, [cust])) := by
  refine ⟨fun c hc => ?_, fun hn cust hcr => ?_⟩
  · simp [createCustomerExec, hv, hc]
  · obtain ⟨he, hname, hcust⟩ := customerCreate_ok_inv hcr
    refine ⟨hcust, ?_⟩
    have hsave : prismaCustomerSave repo.nextId ⟨none, d.fullName, d.email⟩ =
        .ok ⟨some repo.nextId, d.fullName, d.email⟩ := by
      simp [prismaCustomerSave, Customer.create, he, hname]
    rw [hcust] at hcr
    simp [createCustomerExec, hv, hn, hcr, hsave]
    exact hcust.symm

/-- Witness for C7: the same valid payload conflicts against a
repository owning the email and saves against an empty one. -/
theorem create_customer_conflict_witness :
    customerCreateParse ⟨"Jane Roe", "jane@example.com"⟩ =
      .ok ⟨"Jane Roe", "jane@example.com"⟩ ∧
    repoWithJohn.findByEmail "jane@example.com" = some johnDoe ∧
    createCustomerExec repoWithJohn ⟨"Jane Roe", "jane@example.com"⟩ =
      (.error (.customerAlreadyExists "jane@example.com"), []) ∧
    createCustomerExec emptyCustomerRepo ⟨"Jane Roe", "jane@example.com"⟩ =
      (.ok ⟨some 1, "Jane Roe", "jane@example.com"⟩,
        [⟨none, "Jane Roe", "jane@example.com"⟩]) := by
  have hv : customerCreateParse ⟨"Jane Roe", "jane@example.com"⟩ =
      .ok ⟨"Jane Roe", "jane@example.com"⟩ := by decide
  refine ⟨hv, rfl, ?_, ?_⟩
  · exact (create_customer_conflict repoWithJohn
      ⟨"Jane Roe", "jane@example.com"⟩ hv).1 johnDoe rfl
  · exact ((create_customer_conflict emptyCustomerRepo
      ⟨"Jane Roe", "jane@example.com"⟩ hv).2 rfl
      ⟨none, "Jane Roe", "jane@example.com"⟩ (by decide)).2

/-! ### C5: pagination normalization in the list use cases -/

/-- C5: in every list use case the effective page is the input page when
positive and 1 otherwise, the effective page size is the input page size
when positive and 10 otherwise, the repository is queried at
`skip = (page-1)*pageSize`, and the returned envelope reports exactly
these values together with the repository total and
`totalPages = ceil (total / pageSize)`. -/
theorem pagination_normalization (custRepo : CustomerRepo)
    (loanRepo : LoanAppRepo) (params : PaginationInput) (cid : String)
    (cust : Customer) (hc : custRepo.findById cid = some cust) :
    ((params.page = none → (getPaginationParameters params).page = 1)
     ∧ (∀ p, params.page = some p →
         (getPaginationParameters params).page = if 0 < p then p else 1)
     ∧ (params.pageSize = none → (getPaginationParameters params).pageSize = 10)
     ∧ (∀ q, params.pageSize = some q →
         (getPaginationParameters params).pageSize = if 0 < q then q else 10)
     ∧ (getPaginationParameters params).skip =
         ((getPaginationParameters params).page - 1) *
           (getPaginationParameters params).pageSize)
    ∧ listCustomersExec custRepo params =
        ⟨(custRepo.findAll (getPaginationParameters params).skip
            (getPaginationParameters params).pageSize).customers,
          (custRepo.findAll (getPaginationParameters params).skip
            (getPaginationParameters params).pageSize).total,
          (getPaginationParameters params).page,
          (getPaginationParameters params).pageSize,
          ⌈((custRepo.findAll (getPaginationParameters params).skip
              (getPaginationParameters params).pageSize).total : ℚ) /
            (getPaginationParameters params).pageSize⌉⟩
    ∧ listLoanApplicationsExec loanRepo params =
        ⟨(loanRepo.findAll (getPaginationParameters params).skip
            (getPaginationParameters params).pageSize).loanApplications,
          (loanRepo.findAll (getPaginationParameters params).skip
            (getPaginationParameters params).pageSize).total,
          (getPaginationParameters params).page,
          (getPaginationParameters params).pageSize,
          ⌈((loanRepo.findAll (getPaginationParameters params).skip
              (getPaginationParameters params).pageSize).total : ℚ) /
            (getPaginationParameters params).pageSize⌉⟩
    ∧ loanAppsByCustomerExec loanRepo custRepo cid params =
        .ok ⟨(loanRepo.findByCustomerId cid (getPaginationParameters params).skip
            (getPaginationParameters params).pageSize).loanApplications,
          (loanRepo.findByCustomerId cid (getPaginationParameters params).skip
            (getPaginationParameters params).pageSize).total,
          (getPaginationParameters params).page,
          (getPaginationParameters params).pageSize,
          ⌈((loanRepo.findByCustomerId cid (getPaginationParameters params).skip
              (getPaginationParameters params).pageSize).total : ℚ) /
            (getPaginationParameters params).pageSize⌉⟩ := by
  obtain ⟨pg, ps⟩ := params
  refine ⟨⟨?_, ?_, ?_, ?_, ?_⟩, ?_, ?_, ?_⟩
  · intro h; subst h; cases ps <;> simp [getPaginationParameters]
  · intro p h; subst h; cases ps <;> simp [getPaginationParameters]
  · intro h; subst h; cases pg <;> simp [getPaginationParameters]
  · intro q h; subst h; cases pg <;> simp [getPaginationParameters]
  · cases pg <;> cases ps <;> simp [getPaginationParameters]
  · cases pg <;> cases ps <;> simp [getPaginationParameters, listCustomersExec, jsCeil]
  · cases pg <;> cases ps <;>
      simp [getPaginationParameters, listLoanApplicationsExec, jsCeil]
  · cases pg <;> cases ps <;>
      simp [getPaginationParameters, loanAppsByCustomerExec, jsCeil, hc]

/-- Witness for C5 at page 2, page size 5. -/
theorem pagination_normalization_witness :
    repoWithJohn.findById sampleUuid = some johnDoe ∧
    listCustomersExec repoWithJohn ⟨some 2, some 5⟩ = ⟨[johnDoe], 1, 2, 5, 1⟩ ∧
    listLoanApplicationsExec emptyLoanRepo ⟨some 2, some 5⟩ = ⟨[], 0, 2, 5, 0⟩ ∧
    loanAppsByCustomerExec emptyLoanRepo repoWithJohn sampleUuid
      ⟨some 2, some 5⟩ = .ok ⟨[], 0, 2, 5, 0⟩ := by
  have H := pagination_normalization repoWithJohn emptyLoanRepo ⟨some 2, some 5⟩
    sampleUuid johnDoe rfl
  refine ⟨rfl, ?_, ?_, ?_⟩
  · rw [H.2.1]
    norm_num [getPaginationParameters, repoWithJohn]
    rw [Int.ceil_eq_iff]
    norm_num
  · rw [H.2.2.1]
    norm_num [getPaginationParameters, emptyLoanRepo]
  · rw [H.2.2.2]
    norm_num [getPaginationParameters, emptyLoanRepo]

/-! ### C9: page size capped at 100 by the pagination schema -/

/-- C9: a pagination input whose `pageSize` exceeds 100 is rejected by
the pagination schema with an issue on the `pageSize` path, and whenever
the schema accepts, the effective page size handed to the repository
never exceeds 100. -/
theorem pagination_schema_bounds (pg ps : Option ℚ) :
    (∀ q, ps = some q → (100:ℚ) < q →
      ∃ issues, paginationParse ⟨pg, ps⟩ = .error issues ∧
        Issue.mk ["pageSize"] "Number must be less than or equal to 100"
          ∈ issues)
    ∧ (∀ res, paginationParse ⟨pg, ps⟩ = .ok res →
        (getPaginationParameters res).pageSize ≤ 100) := by
  constructor
  · intro q hq h100
    subst hq
    have hmem : Issue.mk ["pageSize"] "Number must be less than or equal to 100"
        ∈ paginationIssues ⟨pg, some q⟩ := by
      simp [paginationIssues, h100]
    have hne : (paginationIssues ⟨pg, some q⟩).isEmpty = false := by
      cases hl : paginationIssues ⟨pg, some q⟩ with
      | nil => rw [hl] at hmem; simp at hmem
      | cons a l => simp
    refine ⟨paginationIssues ⟨pg, some q⟩, ?_, hmem⟩
    simp [paginationParse, hne]
  · intro res hres
    by_cases hemp : (paginationIssues ⟨pg, ps⟩).isEmpty
    · have hres2 : res = ⟨pg, ps⟩ := by
        simp [paginationParse, hemp] at hres
        exact hres.symm
      subst hres2
      cases ps with
      | none => simp [getPaginationParameters]; norm_num
      | some q =>
        have hq100 : ¬ ((100:ℚ) < q) := by
          intro h
          have hmem : Issue.mk ["pageSize"]
              "Number must be less than or equal to 100"
              ∈ paginationIssues ⟨pg, some q⟩ := by
            simp [paginationIssues, h]
          cases hl : paginationIssues ⟨pg, some q⟩ with
          | nil => rw [hl] at hmem; simp at hmem
          | cons a l => rw [hl] at hemp; simp at hemp
        simp only [getPaginationParameters]
        split
        · exact not_lt.mp hq100
        · norm_num
    · simp [paginationParse, hemp] at hres

/-- Witness for C9: page size 250 is rejected with a `pageSize` issue;
page size 50 is accepted and stays below the cap. -/
theorem pagination_schema_bounds_witness :
    (100:ℚ) < 250 ∧
    (∃ issues, paginationParse ⟨none, some 250⟩ = .error issues ∧
      Issue.mk ["pageSize"] "Number must be less than or equal to 100"
        ∈ issues) ∧
    paginationParse ⟨none, some (50:ℚ)⟩ = .ok ⟨none, some 50⟩ ∧
    (∀ res, paginationParse ⟨none, some (50:ℚ)⟩ = .ok res →
      (getPaginationParameters res).pageSize ≤ 100) :=
  ⟨by norm_num,
    (pagination_schema_bounds none (some 250)).1 250 rfl (by norm_num),
    by decide,
    (pagination_schema_bounds none (some 50)).2⟩

/-! ### C10: updating with the unchanged e-mail skips the uniqueness
lookup -/

/-- The tail of the update use case can only fail with the entity
constructor's errors (from the in-place validation or the Prisma save's
re-validation), never with a conflict. -/
theorem finishCustomerUpdate_not_conflict (repo : CustomerRepo)
    (v : CustomerUpdateInput) (c : Customer) (e : String) :
    finishCustomerUpdate repo v c ≠ .error (.customerAlreadyExists e) := by
  cases hfn : v.fullName with
  | none =>
    simp only [finishCustomerUpdate, hfn]
    exact prismaCustomerSave_not_conflict _ _ _
  | some n =>
    simp only [finishCustomerUpdate, hfn]
    by_cases hne : n = ""
    · rw [if_neg (by simp [hne])]
      exact prismaCustomerSave_not_conflict _ _ _
    · rw [if_pos hne]
      rcases validateFullNameCheck_cases n with h | ⟨msg, h⟩ <;>
        simp only [Customer.updateFullName, h] <;>
        first
          | exact prismaCustomerSave_not_conflict _ _ _
          | simp

/-- C10: for a schema-valid update whose `email` equals the loaded
customer's current email, the use case never calls `findByEmail` and
cannot fail with the already-exists conflict, whatever the repository
holds; and whenever the effective full name (the provided one, or the
stored one when none is provided) meets the entity's trimmed 2-100
bound and the stored email has a valid shape — as every persisted
customer's does — the update succeeds with the email unchanged. -/
theorem update_same_email_skips_lookup (repo : CustomerRepo) (id : String)
    (d : CustomerUpdateInput) (customer : Customer)
    (hv : customerUpdateParse d = .ok d)
    (hfind : repo.findById id = some customer)
    (hemail : d.email = some customer.email) :
    (updateCustomerExec repo id d).2 = [] ∧
    (∀ e, (updateCustomerExec repo id d).1 ≠
      .error (.customerAlreadyExists e)) ∧
    (∀ en, (match d.fullName with
        | some n => en = n
        | none => en = customer.fullName) →
      2 ≤ (trimChars en.data).length → (trimChars en.data).length ≤ 100 →
      entityEmailOk customer.email = true →
      ∃ saved, updateCustomerExec repo id d = (.ok saved, []) ∧
        saved.email = customer.email ∧ saved.fullName = en) := by
  have hstep : updateCustomerExec repo id d =
      (finishCustomerUpdate repo d customer, []) := by
    simp [updateCustomerExec, hv, hfind, hemail]
  refine ⟨by rw [hstep], fun e => ?_, fun en hen hlo hhi hce => ?_⟩
  · rw [hstep]
    exact finishCustomerUpdate_not_conflict repo d customer e
  · have hne : en ≠ "" := by
      intro h
      subst h
      simp [trimChars] at hlo
    have hvfn : validateFullNameCheck en = .ok () := by
      rw [validateFullNameCheck,
        if_neg (by push_neg; exact ⟨hne, by omega⟩), if_neg (by omega)]
    cases hfn : d.fullName with
    | none =>
      rw [hfn] at hen
      have hen2 : en = customer.fullName := hen
      subst hen2
      obtain ⟨saved, hs, hsn, hse⟩ :=
        prismaCustomerSave_ok repo.nextId customer hce hvfn
      refine ⟨saved, ?_, hse, hsn⟩
      rw [hstep]
      simp [finishCustomerUpdate, hfn, hs]
    | some n =>
      rw [hfn] at hen
      have hen2 : en = n := hen
      rw [← hen2] at hfn
      obtain ⟨saved, hs, hsn, hse⟩ :=
        prismaCustomerSave_ok repo.nextId { customer with fullName := en }
          (by simpa using hce) (by simpa using hvfn)
      refine ⟨saved, ?_, by simpa using hse, by simpa using hsn⟩
      rw [hstep]
      simp [finishCustomerUpdate, hfn, hne, Customer.updateFullName, hvfn, hs]

/-- Witness for C10: the repository would report a conflict for every
email, yet updating with the unchanged email succeeds without any
`findByEmail` call. -/
theorem update_same_email_skips_lookup_witness :
    customerUpdateParse ⟨some "Jane Doe", some "john@example.com"⟩ =
      .ok ⟨some "Jane Doe", some "john@example.com"⟩ ∧
    repoWithJohn.findById "42" = some johnDoe ∧
    updateCustomerExec repoWithJohn "42"
        ⟨some "Jane Doe", some "john@example.com"⟩ =
      (.ok ⟨some 1, "Jane Doe", "john@example.com"⟩, []) ∧
    (∀ e, (updateCustomerExec repoWithJohn "42"
        ⟨some "Jane Doe", some "john@example.com"⟩).1 ≠
      .error (.customerAlreadyExists e)) ∧
    (∃ saved, updateCustomerExec repoWithJohn "42"
        ⟨some "Jane Doe", some "john@example.com"⟩ = (.ok saved, []) ∧
      saved.email = johnDoe.email ∧ saved.fullName = "Jane Doe") := by
  have H := update_same_email_skips_lookup repoWithJohn "42"
    ⟨some "Jane Doe", some "john@example.com"⟩ johnDoe (by decide) rfl rfl
  exact ⟨by decide, rfl, by decide, H.2.1,
    H.2.2 "Jane Doe" rfl (by decide) (by decide) (by decide)⟩

end LoanService
